import Mathlib

/-!
Verification development for the token-analytics evaluation pipeline.

The definitions below are a shallow embedding of `src/eval.py`
(`TokenAnalyticsEvaluator`: value extraction, accuracy classification,
hallucination detection) and `src/grading_scale.py`
(`AnalyticsGradingScale`: sub-scores, weighted final score, letter grade).
Python floats are modelled as exact rationals (`ℚ`); `round(x, 2)` is
modelled as exact round-half-to-even at two decimals; strings are treated
as ASCII character lists (Python's `str.upper`/`str.lower`/`\s`/`\b`
restricted to ASCII).
-/

namespace TokenAnalytics

/-! ### Character and string helpers (Python semantics, ASCII fragment) -/

/-- Python `\s` whitespace class (ASCII part): space, tab, LF, CR, VT, FF. -/
def pyIsSpace (c : Char) : Bool :=
  c = ' ' || c = '\t' || c = '\n' || c = '\r' || c = '\x0b' || c = '\x0c'

/-- Python regex word character `\w` (ASCII part): `[A-Za-z0-9_]`. -/
def isWordChar (c : Char) : Bool :=
  ('a' ≤ c && c ≤ 'z') || ('A' ≤ c && c ≤ 'Z') || ('0' ≤ c && c ≤ '9') || c = '_'

/-- Python `str.upper()` on ASCII text. -/
def pyUpper (s : String) : String := String.mk (s.toList.map Char.toUpper)

/-- Python `str.lower()` on ASCII text. -/
def pyLower (s : String) : String := String.mk (s.toList.map Char.toLower)

/-- Tests that `needle` occurs contiguously inside `hay` (Python's `needle in hay`). -/
def listIsInfix (needle : List Char) : List Char → Bool
  | [] => needle.isPrefixOf []
  | c :: rest => needle.isPrefixOf (c :: rest) || listIsInfix needle rest

/-- Python substring test `needle in hay` on strings. -/
def pyContains (hay needle : String) : Bool := listIsInfix needle.toList hay.toList

/-! ### The numeric regex `([+-]?([0-9]*[.])?[0-9]+)` and its searches

`eval.py` extracts numbers with `re.search` on the pattern
`([+-]?([0-9]*[.])?[0-9]+)` optionally followed by `\s*%` or
`\s*(?:percent|percentage)`.  We embed the backtracking behaviour of this
concrete pattern directly: at a match position the engine consumes an
optional sign, then greedily either `digits '.' digits` or plain `digits`
(falling back from the dotted form to the plain form when the dotted form
cannot complete), and for the suffixed variants the suffix must follow
after optional whitespace.  Shorter-digit backtracking alternatives can
never satisfy the suffixes (the next character would be a digit, which is
neither whitespace, `%`, nor `p`), so only the two alternatives below can
produce a match at a given position. -/

/-- Group 1 of the numeric pattern: sign, integer digits, optional
fractional digits. -/
structure NumMatch where
  neg : Bool
  intPart : List Char
  fracPart : Option (List Char)
  deriving Repr, DecidableEq

/-- Value of a digit run (most significant first). -/
def digitsToNat (ds : List Char) : Nat :=
  ds.foldl (fun a c => a * 10 + (c.toNat - '0'.toNat)) 0

/-- Python `float()` applied to the matched numeral, as an exact rational. -/
def numValue (m : NumMatch) : ℚ :=
  let mag : ℚ :=
    (digitsToNat m.intPart : ℚ) +
      (match m.fracPart with
       | none => 0
       | some fs => (digitsToNat fs : ℚ) / (10 ^ fs.length))
  if m.neg then -mag else mag

/-- Try to match the numeric pattern anchored at the head of `s`, with a
suffix requirement `suffixOk` applied to the remainder (use `fun _ => true`
for the bare number pattern).  Returns the captured group.  The
alternatives are tried in the regex engine's preference order:
dotted form first, then the plain-digits fallback. -/
def numMatchAt (suffixOk : List Char → Bool) (s : List Char) : Option NumMatch :=
  let (neg, s1) :=
    match s with
    | '-' :: r => (true, r)
    | '+' :: r => (false, r)
    | _ => (false, s)
  let d := s1.takeWhile Char.isDigit
  let s2 := s1.drop d.length
  if d.isEmpty then
    -- no leading digits: only `.digits` can match (`[0-9]*` empty, then `.`)
    match s2 with
    | '.' :: s3 =>
      let e := s3.takeWhile Char.isDigit
      if e.isEmpty then none
      else if suffixOk (s3.drop e.length) then some ⟨neg, [], some e⟩ else none
    | _ => none
  else
    match s2 with
    | '.' :: s3 =>
      let e := s3.takeWhile Char.isDigit
      if e.isEmpty then
        -- dotted form needs at least one digit after `.`; fall back to plain digits
        if suffixOk ('.' :: s3) then some ⟨neg, d, none⟩ else none
      else if suffixOk (s3.drop e.length) then some ⟨neg, d, some e⟩
      else if suffixOk ('.' :: s3) then some ⟨neg, d, none⟩ else none
    | _ => if suffixOk s2 then some ⟨neg, d, none⟩ else none

/-- Models `re.search`: leftmost position at which the pattern matches. -/
def numSearch (suffixOk : List Char → Bool) : List Char → Option NumMatch
  | [] => numMatchAt suffixOk []
  | c :: rest =>
    match numMatchAt suffixOk (c :: rest) with
    | some m => some m
    | none => numSearch suffixOk rest

/-- Suffix `\s*%`. -/
def pctSuffix (r : List Char) : Bool :=
  match r.dropWhile pyIsSpace with
  | '%' :: _ => true
  | _ => false

/-- Suffix `\s*(?:percent|percentage)`: the alternation tries `percent`
first, and `percentage` begins with `percent`, so the test reduces to a
`percent` prefix check. -/
def pctWordSuffix (r : List Char) : Bool :=
  "percent".toList.isPrefixOf (r.dropWhile pyIsSpace)

/-! ### Word-boundary word removal: `re.sub(r'\b(w1|w2|...)\b', '', text)` -/

/-- First word of `ws` (in alternation order) that matches at the head of
`s` with `\b` boundaries on both sides, `prev` being the character just
before the current position in the original string. -/
def wordHit (prev : Option Char) (ws : List (List Char)) (s : List Char) :
    Option (List Char) :=
  ws.find? fun w =>
    !w.isEmpty && w.isPrefixOf s &&
      (match prev with | none => true | some c => !isWordChar c) &&
      (match s.drop w.length with | [] => true | c :: _ => !isWordChar c)

/-- Recursion core of `subWords`, structural on a fuel argument.  Each
matched word is non-empty (guaranteed by `wordHit`) and each non-match
emits one character, so `fuel = s.length` always suffices and the
fuel-exhaustion arm is unreachable. -/
def subWordsGo (ws : List (List Char)) : Nat → Option Char → List Char → List Char
  | _, _, [] => []
  | 0, _, rest => rest
  | fuel + 1, prev, c :: rest =>
    match wordHit prev ws (c :: rest) with
    | some w => subWordsGo ws fuel (some (w.getLastD ' ')) ((c :: rest).drop w.length)
    | none => c :: subWordsGo ws fuel (some c) rest

/-- Models `re.sub` of a word alternation with `''`: scan left to right, delete
each leftmost boundary-delimited occurrence, resume after the deleted
region (so the preceding-character context of the next position is the
last character of the deleted word). -/
def subWords (ws : List (List Char)) (prev : Option Char) (s : List Char) :
    List Char :=
  subWordsGo ws s.length prev s

/-- Recursion core of `subRuns`, structural on a fuel argument; every step
consumes at least one character, so `fuel = s.length` always suffices. -/
def subRunsGo (p : Char → Bool) : Nat → List Char → List Char
  | _, [] => []
  | 0, rest => rest
  | fuel + 1, c :: rest =>
    if p c then ' ' :: subRunsGo p fuel (rest.dropWhile p)
    else c :: subRunsGo p fuel rest

/-- Models `re.sub(r'<class>+', ' ', text)`: replace each maximal run of
characters satisfying `p` with a single space. -/
def subRuns (p : Char → Bool) (s : List Char) : List Char :=
  subRunsGo p s.length s

/-- Python `str.split()`: split on whitespace runs, dropping empty pieces. -/
def splitWsAux : List Char → List Char → List (List Char)
  | [], acc => if acc.isEmpty then [] else [acc.reverse]
  | c :: rest, acc =>
    if pyIsSpace c then
      if acc.isEmpty then splitWsAux rest [] else acc.reverse :: splitWsAux rest []
    else splitWsAux rest (c :: acc)

def splitWs (s : List Char) : List String := (splitWsAux s []).map String.mk

/-! ### The extractors of `TokenAnalyticsEvaluator` (`src/eval.py`) -/

/-- Embeds `_extract_numeric_percentage`: first a `%`-suffixed search on the raw
text, then a `percent`/`percentage`-suffixed search on the lowercased
text.  (The `float()` conversion of a matched numeral cannot raise, so the
`try/except ValueError` in the source is dead and not modelled.) -/
def extract_numeric_percentage (text : String) : Option ℚ :=
  if text = "" then none
  else
    match numSearch pctSuffix text.toList with
    | some m => some (numValue m)
    | none =>
      match numSearch pctWordSuffix (pyLower text).toList with
      | some m => some (numValue m)
      | none => none

/-- Hedge words removed by `_extract_plain_number`, in alternation order. -/
def hedgeWords : List (List Char) :=
  ["about".toList, "approximately".toList, "roughly".toList, "around".toList]

/-- The cleaned text of `_extract_plain_number`: lowercase, strip `$`,
strip hedge words. -/
def plainCleanText (text : String) : List Char :=
  subWords hedgeWords none (((pyLower text).toList).filter (· ≠ '$'))

/-- The decrease-context test of `_extract_plain_number`
(`'decrease' in text or 'decreased' in text or 'down' in text`; the
`elif increase` branch re-assigns the already-false default and has no
observable effect). -/
def plainIsNegative (t : List Char) : Bool :=
  if listIsInfix "decrease".toList t || listIsInfix "decreased".toList t ||
      listIsInfix "down".toList t then true
  else false

/-- Embeds `_extract_plain_number`: lowercase, strip `$`, strip hedge words,
detect decrease/increase context, extract the first number, and negate a
positive number found in a decrease context. -/
def extract_plain_number (text : String) : Option ℚ :=
  if text = "" then none
  else
    let t3 := plainCleanText text
    match numSearch (fun _ => true) t3 with
    | some m =>
      let v := numValue m
      if plainIsNegative t3 && v > 0 then some (-v) else some v
    | none => none

/-- The fixed valid-token set used throughout `eval.py`. -/
def validTokens : List String := ["SOL", "ETH", "TAO"]

/-- Embeds `_extract_token_name` with its default token list: uppercase the text
and return the first token of the list (in list order) occurring as a
substring. -/
def extract_token_name (text : String) : Option String :=
  if text = "" then none
  else
    let up := pyUpper text
    validTokens.find? fun tok => pyContains up tok

/-- Embeds `_extract_date_from_text`: leftmost substring of shape
`\d{4}-\d{2}-\d{2}`. -/
def dateShapeAt (s : List Char) : Option (List Char) :=
  match s with
  | a :: b :: c :: d :: '-' :: e :: f :: '-' :: g :: h :: _ =>
    if a.isDigit && b.isDigit && c.isDigit && d.isDigit && e.isDigit &&
        f.isDigit && g.isDigit && h.isDigit then
      some [a, b, c, d, '-', e, f, '-', g, h]
    else none
  | _ => none

def dateSearch : List Char → Option (List Char)
  | [] => none
  | c :: rest =>
    match dateShapeAt (c :: rest) with
    | some m => some m
    | none => dateSearch rest

def extract_date_from_text (text : String) : Option String :=
  if text = "" then none
  else (dateSearch text.toList).map String.mk

/-- Ranking connector words removed by `_normalize_ranking`, in the
alternation/backtracking order of `\b(ranked|ranking|order|by|as|follows?|is|are)\b`
(`follows?` greedily tries `follows` before `follow`). -/
def rankWords : List (List Char) :=
  ["ranked".toList, "ranking".toList, "order".toList, "by".toList, "as".toList,
   "follows".toList, "follow".toList, "is".toList, "are".toList]

/-- First pass of `_normalize_ranking`: collect token-set members among
the whitespace-split words, in order of appearance, deduplicating. -/
def orderedScan (words : List String) : List String :=
  words.foldl
    (fun acc w => if w ∈ validTokens ∧ w ∉ acc then acc ++ [w] else acc) []

/-- Second pass of `_normalize_ranking`: append every token of the
canonical set (in set order) occurring anywhere in the cleaned text and
not already found. -/
def fallbackPass (found : List String) (text : List Char) : List String :=
  validTokens.foldl
    (fun acc tok =>
      if listIsInfix tok.toList text ∧ tok ∉ acc then acc ++ [tok] else acc)
    found

/-- The cleaned text of `_normalize_ranking`: uppercase, remove ranking
connector words (a no-op on uppercased text, since the pattern's words are
lowercase — embedded faithfully all the same), collapse arrow/dash/space
runs, then comma/space runs. -/
def rankingCleanText (text : String) : List Char :=
  let t0 := (pyUpper text).toList
  let t1 := subWords rankWords none t0
  let t2 := subRuns (fun c => c = '-' || c = '>' || pyIsSpace c) t1
  subRuns (fun c => c = ',' || pyIsSpace c) t2

/-- Embeds `_normalize_ranking`. -/
def normalize_ranking (text : String) : Option (List String) :=
  if text = "" then none
  else
    let cleaned := rankingCleanText text
    let found := orderedScan (splitWs cleaned)
    let found2 :=
      if found ≠ [] ∧ found.length < 3 then fallbackPass found cleaned else found
    if found2 = [] then none else some found2

/-! ### Data model -/

/-- A typed value: the possible runtime types of `truth` and `predicted`
(`float`/`int` collapse to `ℚ`; strings; lists of strings). -/
inductive Val where
  | num (q : ℚ)
  | str (s : String)
  | list (l : List String)
  deriving Repr, DecidableEq

/-- One benchmark question from the query store (`id`, `question`,
`category`, `truth`; the optional `explanation` plays no role in the
claims and is omitted). -/
structure Query where
  id : String
  question : String
  category : String
  truth : Val
  deriving Repr, DecidableEq

/-- Output of `_calculate_accuracy`. -/
structure AccResult where
  correct : Bool
  absolute_error : Option ℚ
  error_type : Option String
  deriving Repr, DecidableEq

/-- One per-question evaluation record (the fields of the result dict of
`evaluate_agent_response` consumed by the grading engine; `question`,
`explanation` and `timestamp` are display-only and omitted). -/
structure Result where
  query_id : String
  category : String
  truth : Val
  agent_response : Option String
  predicted : Option Val
  correct : Bool
  absolute_error : Option ℚ
  error_type : Option String
  is_hallucination : Bool
  deriving Repr, DecidableEq

/-! ### Accuracy classification (`_calculate_accuracy`, eval.py:186-216) -/

/-- Embeds `_calculate_accuracy(predicted, truth, category)`: the `isinstance`
dispatch — both numeric, both string, both list, otherwise the
`type_mismatch` catch-all (which includes `predicted is None`).  The
`category` argument is unused, as in the source. -/
def calculate_accuracy : Option Val → Val → String → AccResult
  | some (.num p), .num t, _ =>
    ⟨decide (|p - t| ≤ 1), some |p - t|, some "numeric_error"⟩
  | some (.str p), .str t, _ =>
    ⟨decide (pyUpper p = pyUpper t), none, some "string_mismatch"⟩
  | some (.list p), .list t, _ =>
    ⟨decide (p = t), none, some "list_mismatch"⟩
  | _, _, _ => ⟨false, none, some "type_mismatch"⟩

/-! ### Extraction dispatch and hallucination detection
(`evaluate_agent_response`, eval.py:218-312) -/

/-- The category/question dispatch of `evaluate_agent_response`
(eval.py:240-267) choosing which extractor produces `predicted`.
Categories outside the six handled ones leave `predicted = None`. -/
def extractPredicted (q : Query) (agent_response : String) : Option Val :=
  let question := pyLower q.question
  if q.category = "percentage_threshold" then
    (extract_numeric_percentage agent_response).map Val.num
  else if q.category = "price_change" then
    (extract_plain_number agent_response).map Val.num
  else if q.category = "volatility" then
    if pyContains question "most volatile" || pyContains question "which token" then
      (extract_token_name agent_response).map Val.str
    else (extract_plain_number agent_response).map Val.num
  else if q.category = "volume_analysis" ∨ q.category = "performance_comparison" then
    if pyContains question "ranking" || pyContains question "rank" then
      (normalize_ranking agent_response).map Val.list
    else (extract_token_name agent_response).map Val.str
  else if q.category = "price_analysis" then
    if pyContains question "date" then
      (extract_date_from_text agent_response).map Val.str
    else if pyContains question "ranking" || pyContains question "rank" then
      (normalize_ranking agent_response).map Val.list
    else (extract_token_name agent_response).map Val.str
  else none

/-- The string whitelist of the hallucination check (valid tokens plus the
two date literals hardcoded in eval.py:288). -/
def stringWhitelist : List String :=
  ["SOL", "ETH", "TAO", "2025-06-11", "2025-06-23"]

/-- The hallucination decision of `evaluate_agent_response`
(eval.py:272-294): `None` is always flagged; numeric values are flagged by
the category-specific bounds; strings outside the whitelist and lists with
invalid members are flagged. -/
def hallucinationFlag : Option Val → String → Bool
  | none, _ => true
  | some (.num x), category =>
    if category = "percentage_threshold" ∧ (x > 100 ∨ x < 0) then true
    else if category = "price_change" ∧ (x > 1000 ∨ x < -1000) then true
    else if category = "volatility" ∧ x > 1000 then true
    else false
  | some (.str s), _ => if s ∉ stringWhitelist then true else false
  | some (.list l), _ => if ¬ (∀ tok ∈ l, tok ∈ validTokens) then true else false

/-- Embeds `evaluate_agent_response` for a given query record.  (The source first
looks the query up by id in the loaded store and raises if absent; the
claims quantify over queries in the store, so the embedding takes the
found record directly.) -/
def evaluate_agent_response (q : Query) (agent_response : String) : Result :=
  let predicted := extractPredicted q agent_response
  let accuracy := calculate_accuracy predicted q.truth q.category
  { query_id := q.id
    category := q.category
    truth := q.truth
    agent_response := some agent_response
    predicted := predicted
    correct := accuracy.correct
    absolute_error := accuracy.absolute_error
    error_type := accuracy.error_type
    is_hallucination := hallucinationFlag predicted q.category }

/-- The missing-response record built by `run_evaluation`
(eval.py:339-352) when a query has no agent response. -/
def missingResult (q : Query) : Result :=
  { query_id := q.id
    category := q.category
    truth := q.truth
    agent_response := none
    predicted := none
    correct := false
    absolute_error := none
    error_type := some "missing_response"
    is_hallucination := false }

/-- The per-question result produced inside `run_evaluation`
(eval.py:327-353): evaluate when a response is present, otherwise the
missing-response record. -/
def runResult (q : Query) (response : Option String) : Result :=
  match response with
  | some r => evaluate_agent_response q r
  | none => missingResult q

/-! ### Grading engine (`src/grading_scale.py`) -/

/-- The 13 grade levels. -/
inductive GradeLevel where
  | APlus | A | AMinus | BPlus | B | BMinus
  | CPlus | C | CMinus | DPlus | D | DMinus | F
  deriving Repr, DecidableEq

/-- The table `self.grade_thresholds` in insertion (= iteration) order,
grading_scale.py:35-49. -/
def gradeTable : List (GradeLevel × ℚ) :=
  [(.APlus, 95), (.A, 90), (.AMinus, 85), (.BPlus, 80), (.B, 75), (.BMinus, 70),
   (.CPlus, 65), (.C, 60), (.CMinus, 55), (.DPlus, 50), (.D, 45), (.DMinus, 40),
   (.F, 0)]

/-- The scan of `_get_grade`: first entry whose threshold the score meets
or exceeds, defaulting to F. -/
def gradeScan (score : ℚ) : List (GradeLevel × ℚ) → GradeLevel
  | [] => .F
  | (g, t) :: rest => if score ≥ t then g else gradeScan score rest

/-- Embeds `_get_grade` (grading_scale.py:222-227). -/
def get_grade (score : ℚ) : GradeLevel := gradeScan score gradeTable

/-- Python `round(q)` to an integer: round half to even. -/
def roundHalfEven (q : ℚ) : ℤ :=
  if q - ⌊q⌋ < 1 / 2 then ⌊q⌋
  else if 1 / 2 < q - ⌊q⌋ then ⌊q⌋ + 1
  else if Even ⌊q⌋ then ⌊q⌋ else ⌊q⌋ + 1

/-- Python `round(q, 2)`: round half to even at two decimal places. -/
def roundQ2 (q : ℚ) : ℚ := (roundHalfEven (q * 100) : ℚ) / 100

/-- Embeds `_calculate_final_score` (grading_scale.py:216-220). -/
def calculate_final_score (accuracy precision quality : ℚ) : ℚ :=
  roundQ2 (accuracy * 0.6 + precision * 0.25 + quality * 0.15)

/-- Embeds `_calculate_accuracy_score` (grading_scale.py:123-168): 100 when
correct; tolerance-banded relative error for numeric errors (absolute
bands when the truth is zero or non-numeric); fixed scores per error
kind otherwise. -/
def calculate_accuracy_score (r : Result) : ℚ :=
  if r.correct then 100
  else
    match r.error_type, r.absolute_error with
    | some "numeric_error", some err =>
      match r.truth with
      | .num t =>
        if t ≠ 0 then
          let relative_error := |err / t|
          if relative_error ≤ 0.01 then 95
          else if relative_error ≤ 0.05 then 85
          else if relative_error ≤ 0.10 then 70
          else if relative_error ≤ 0.25 then 50
          else if relative_error ≤ 0.50 then 30
          else 10
        else
          if err ≤ 1 then 90
          else if err ≤ 5 then 70
          else if err ≤ 10 then 50
          else 20
      | _ =>
        if err ≤ 1 then 90
        else if err ≤ 5 then 70
        else if err ≤ 10 then 50
        else 20
    | et, _ =>
      if et = some "string_mismatch" then 30
      else if et = some "list_mismatch" then 40
      else if et = some "type_mismatch" then 20
      else 0

/-- Embeds `_calculate_precision_score` (grading_scale.py:170-191). -/
def calculate_precision_score (r : Result) : ℚ :=
  match r.predicted with
  | none => 0
  | some (.num _) => 100
  | some (.str s) =>
    if s ∈ validTokens then 100
    else if s.length = 10 then 100
    else 50
  | some (.list l) => if l.length > 0 then 100 else 50

/-- Embeds `_calculate_quality_score` (grading_scale.py:193-214): start at 100,
−50 for hallucination, −30 for null prediction, +10 for correct, +5 for a
numeric prediction with absolute error ≤ 0.1, clamped to [0, 100]. -/
def calculate_quality_score (r : Result) : ℚ :=
  let q1 : ℚ := 100
  let q2 := if r.is_hallucination then q1 - 50 else q1
  let q3 := if r.predicted = none then q2 - 30 else q2
  let q4 := if r.correct then q3 + 10 else q3
  let q5 :=
    match r.predicted, r.absolute_error with
    | some (.num _), some err => if err ≤ 0.1 then q4 + 5 else q4
    | _, _ => q4
  max 0 (min 100 q5)

/-- The grade record assembled by `calculate_question_score`
(`penalties`/`bonuses`/`feedback` are the human-readable tag lists; the
display-only float formatting inside feedback strings is elided). -/
structure ScoreInfo where
  query_id : String
  category : String
  grade : GradeLevel
  score : ℚ
  accuracy_score : ℚ
  precision_score : ℚ
  quality_score : ℚ
  penalties : List String
  bonuses : List String
  feedback : List String
  deriving Repr, DecidableEq

/-- Embeds `_add_feedback` (grading_scale.py:229-247), with the emoji prefixes
and the formatted error magnitude elided from the tag strings. -/
def addFeedback (r : Result) : List String :=
  (if r.correct then ["Correct answer"] else []) ++
  (if r.absolute_error ≠ none then ["Error magnitude"] else []) ++
  (if r.is_hallucination then ["Hallucination detected"] else []) ++
  (if r.error_type = some "numeric_error" then ["Numeric precision issue"]
   else if r.error_type = some "string_mismatch" then ["String matching issue"]
   else if r.error_type = some "list_mismatch" then ["List ordering issue"]
   else if r.error_type = some "type_mismatch" then ["Type conversion issue"]
   else [])

/-- Embeds `calculate_question_score` (grading_scale.py:65-121): the
missing-response and hallucination early returns, then the three
sub-scores, the weighted final score and the letter grade. -/
def calculate_question_score (r : Result) : ScoreInfo :=
  let base : ScoreInfo :=
    { query_id := r.query_id, category := r.category, grade := .F, score := 0
      accuracy_score := 0, precision_score := 0, quality_score := 0
      penalties := [], bonuses := [], feedback := [] }
  if r.error_type = some "missing_response" then
    { base with feedback := ["No response provided"] }
  else if r.is_hallucination then
    { base with penalties := ["Hallucination detected"], score := 0, grade := .F }
  else
    let accuracy_score := calculate_accuracy_score r
    let precision_score := calculate_precision_score r
    let quality_score := calculate_quality_score r
    let final_score := calculate_final_score accuracy_score precision_score quality_score
    { base with
      accuracy_score := accuracy_score
      precision_score := precision_score
      quality_score := quality_score
      score := final_score
      grade := get_grade final_score
      feedback := addFeedback r }

/-! ### Helper lemmas -/

theorem roundHalfEven_bounds (q : ℚ) :
    ⌊q⌋ ≤ roundHalfEven q ∧ roundHalfEven q ≤ ⌊q⌋ + 1 := by
  unfold roundHalfEven
  split_ifs <;> omega

theorem roundHalfEven_mono {x y : ℚ} (h : x ≤ y) :
    roundHalfEven x ≤ roundHalfEven y := by
  rcases lt_or_eq_of_le (Int.floor_le_floor h) with hf | hf
  · have h1 := (roundHalfEven_bounds x).2
    have h2 := (roundHalfEven_bounds y).1
    omega
  · unfold roundHalfEven
    rw [← hf]
    split_ifs <;> first | omega | linarith

theorem roundQ2_mono {x y : ℚ} (h : x ≤ y) : roundQ2 x ≤ roundQ2 y := by
  unfold roundQ2
  have hm : roundHalfEven (x * 100) ≤ roundHalfEven (y * 100) :=
    roundHalfEven_mono (by linarith)
  have : ((roundHalfEven (x * 100) : ℚ)) ≤ (roundHalfEven (y * 100) : ℚ) :=
    Int.cast_le.mpr hm
  linarith

theorem extract_numeric_percentage_found {text : String} {m : NumMatch}
    (h0 : ¬ text = "") (hs : numSearch pctSuffix text.toList = some m) :
    extract_numeric_percentage text = some (numValue m) := by
  simp only [extract_numeric_percentage, if_neg h0, hs]

theorem extract_plain_number_pos {text : String} {m : NumMatch}
    (h0 : ¬ text = "")
    (hs : numSearch (fun _ => true) (plainCleanText text) = some m)
    (hneg : plainIsNegative (plainCleanText text) = false) :
    extract_plain_number text = some (numValue m) := by
  simp only [extract_plain_number, if_neg h0, hs, hneg, Bool.false_and,
    Bool.false_eq_true, if_false]

theorem gradeScan_spec (s : ℚ) (l : List (GradeLevel × ℚ)) :
    (gradeScan s l = .F ∧ ∀ p ∈ l, s < p.2) ∨
    ∃ pre g t post, l = pre ++ (g, t) :: post ∧ gradeScan s l = g ∧ t ≤ s ∧
      ∀ p ∈ pre, s < p.2 := by
  induction l with
  | nil => left; exact ⟨rfl, by simp⟩
  | cons hd tl ih =>
    obtain ⟨g0, t0⟩ := hd
    by_cases hge : s ≥ t0
    · right
      exact ⟨[], g0, t0, tl, by simp, by simp [gradeScan, hge], hge, by simp⟩
    · rcases ih with ⟨hF, hall⟩ | ⟨pre, g, t, post, he, hg, ht, hpre⟩
      · left
        refine ⟨by simp [gradeScan, hge, hF], ?_⟩
        intro p hp
        rcases List.mem_cons.mp hp with rfl | hp
        · exact lt_of_not_ge hge
        · exact hall p hp
      · right
        refine ⟨(g0, t0) :: pre, g, t, post, by simp [he], by simp [gradeScan, hge, hg], ht, ?_⟩
        intro p hp
        rcases List.mem_cons.mp hp with rfl | hp
        · exact lt_of_not_ge hge
        · exact hpre p hp

theorem calculate_accuracy_error_type_ne_missing
    (pred : Option Val) (truth : Val) (cat : String) :
    (calculate_accuracy pred truth cat).error_type ≠ some "missing_response" := by
  rcases pred with _ | v
  · cases truth <;> simp [calculate_accuracy]
  · cases v <;> cases truth <;> simp [calculate_accuracy]

theorem calculate_quality_score_eq_100 (r : Result)
    (h1 : r.is_hallucination = false) (h2 : r.predicted ≠ none) :
    calculate_quality_score r = 100 := by
  unfold calculate_quality_score
  simp only [h1, Bool.false_eq_true, if_false, h2, if_neg]
  rcases hc : r.correct <;> rcases hp : r.predicted with _ | v
  · exact absurd hp h2
  · cases v <;> rcases r.absolute_error with _ | err <;>
      simp only [] <;> split_ifs <;> norm_num
  · exact absurd hp h2
  · cases v <;> rcases r.absolute_error with _ | err <;>
      simp only [] <;> split_ifs <;> norm_num

theorem orderedScan_fold_mem (ws : List String) (acc : List String)
    (hacc : ∀ x ∈ acc, x ∈ validTokens) :
    ∀ x ∈ ws.foldl
        (fun acc w => if w ∈ validTokens ∧ w ∉ acc then acc ++ [w] else acc) acc,
      x ∈ validTokens := by
  induction ws generalizing acc with
  | nil => simpa using hacc
  | cons w rest ih =>
    intro x hx
    refine ih _ ?_ x hx
    intro y hy
    by_cases hw : w ∈ validTokens ∧ w ∉ acc
    · simp only [hw, if_true] at hy
      rcases List.mem_append.mp hy with hy | hy
      · exact hacc y hy
      · simp only [List.mem_singleton] at hy
        exact hy ▸ hw.1
    · simp only [hw, if_false] at hy
      exact hacc y hy

theorem fallback_fold_mem (text : List Char) (ws : List String) (acc : List String)
    (hacc : ∀ x ∈ acc, x ∈ validTokens) (hws : ∀ w ∈ ws, w ∈ validTokens) :
    ∀ x ∈ ws.foldl
        (fun acc tok =>
          if listIsInfix tok.toList text ∧ tok ∉ acc then acc ++ [tok] else acc) acc,
      x ∈ validTokens := by
  induction ws generalizing acc with
  | nil => simpa using hacc
  | cons w rest ih =>
    intro x hx
    refine ih _ ?_ (fun w hw => hws w (List.mem_cons_of_mem _ hw)) x hx
    intro y hy
    by_cases hw : listIsInfix w.toList text ∧ w ∉ acc
    · simp only [hw, if_true] at hy
      rcases List.mem_append.mp hy with hy | hy
      · exact hacc y hy
      · simp only [List.mem_singleton] at hy
        exact hy ▸ hws w (List.mem_cons_self _ _)
    · simp only [hw, if_false] at hy
      exact hacc y hy

theorem fallbackPass_mem (found : List String) (text : List Char)
    (hfound : ∀ x ∈ found, x ∈ validTokens) :
    ∀ x ∈ fallbackPass found text, x ∈ validTokens :=
  fallback_fold_mem text validTokens found hfound (fun _ hw => hw)

theorem orderedScan_mem (ws : List String) :
    ∀ x ∈ orderedScan ws, x ∈ validTokens :=
  orderedScan_fold_mem ws [] (by simp)

theorem normalize_ranking_mem {resp : String} {l : List String}
    (h : normalize_ranking resp = some l) : ∀ tok ∈ l, tok ∈ validTokens := by
  by_cases h0 : resp = ""
  · simp [normalize_ranking, h0] at h
  · simp only [normalize_ranking, if_neg h0] at h
    by_cases h1 : orderedScan (splitWs (rankingCleanText resp)) ≠ [] ∧
        (orderedScan (splitWs (rankingCleanText resp))).length < 3
    · rw [if_pos h1] at h
      by_cases h2 : fallbackPass (orderedScan (splitWs (rankingCleanText resp)))
          (rankingCleanText resp) = []
      · rw [if_pos h2] at h
        exact absurd h (by simp)
      · rw [if_neg h2] at h
        obtain rfl := Option.some_inj.mp h
        exact fallbackPass_mem _ _ (orderedScan_mem _)
    · rw [if_neg h1] at h
      by_cases h2 : orderedScan (splitWs (rankingCleanText resp)) = []
      · rw [if_pos h2] at h
        exact absurd h (by simp)
      · rw [if_neg h2] at h
        obtain rfl := Option.some_inj.mp h
        exact orderedScan_mem _

theorem extractPredicted_list {q : Query} {resp : String} {l : List String}
    (h : extractPredicted q resp = some (.list l)) :
    normalize_ranking resp = some l := by
  simp only [extractPredicted] at h
  split_ifs at h <;> revert h <;> simp

/-! ### Claim theorems -/

/-- **C3.** For all numeric predicted/truth pairs, `_calculate_accuracy`
returns `error_type = numeric_error`, `absolute_error = |predicted −
truth|`, and `correct = true` exactly when `|predicted − truth| ≤ 1.0`. -/
theorem c3_numeric_accuracy_classifier (p t : ℚ) (category : String) :
    (calculate_accuracy (some (.num p)) (.num t) category).error_type =
        some "numeric_error" ∧
    (calculate_accuracy (some (.num p)) (.num t) category).absolute_error =
        some |p - t| ∧
    ((calculate_accuracy (some (.num p)) (.num t) category).correct = true ↔
        |p - t| ≤ 1) := by
  refine ⟨rfl, rfl, ?_⟩
  simp [calculate_accuracy]

/-- **C4.** For a non-null numeric predicted value the hallucination
detector flags `percentage_threshold` exactly when the value is `< 0` or
`> 100`, `price_change` exactly when it is `> 1000` or `< −1000`,
`volatility` exactly when it is `> 1000` (boundary values are not
flagged), and never flags a numeric value under any other category. -/
theorem c4_numeric_hallucination_bounds (x : ℚ) (category : String) :
    (hallucinationFlag (some (.num x)) "percentage_threshold" = true ↔
        (x < 0 ∨ x > 100)) ∧
    (hallucinationFlag (some (.num x)) "price_change" = true ↔
        (x > 1000 ∨ x < -1000)) ∧
    (hallucinationFlag (some (.num x)) "volatility" = true ↔ x > 1000) ∧
    (category ∉ (["percentage_threshold", "price_change", "volatility"] :
          List String) →
      hallucinationFlag (some (.num x)) category = false) := by
  refine ⟨?_, ?_, ?_, ?_⟩
  · simp [hallucinationFlag]
    tauto
  · simp [hallucinationFlag]
  · simp [hallucinationFlag]
  · intro h
    have h1 : category ≠ "percentage_threshold" := by
      intro e; exact h (by simp [e])
    have h2 : category ≠ "price_change" := by
      intro e; exact h (by simp [e])
    have h3 : category ≠ "volatility" := by
      intro e; exact h (by simp [e])
    simp [hallucinationFlag, h1, h2, h3]

theorem c4_numeric_hallucination_bounds_witness :
    ("rolling_stats" ∉ (["percentage_threshold", "price_change",
      "volatility"] : List String)) ∧
    hallucinationFlag (some (.num 123456)) "rolling_stats" = false :=
  ⟨by decide,
   (c4_numeric_hallucination_bounds 123456 "rolling_stats").2.2.2 (by decide)⟩

/-- **C6.** The grading engine returns immediately with score 0 and grade
F, recording only feedback, on `error_type = missing_response`; and
returns immediately with score 0, grade F and the penalty "Hallucination
detected" on `is_hallucination = true` (when the missing-response branch
was not taken). -/
theorem c6_grading_early_returns (r : Result) :
    (r.error_type = some "missing_response" →
      calculate_question_score r =
        { query_id := r.query_id, category := r.category, grade := .F,
          score := 0, accuracy_score := 0, precision_score := 0,
          quality_score := 0, penalties := [], bonuses := [],
          feedback := ["No response provided"] }) ∧
    (r.is_hallucination = true → r.error_type ≠ some "missing_response" →
      calculate_question_score r =
        { query_id := r.query_id, category := r.category, grade := .F,
          score := 0, accuracy_score := 0, precision_score := 0,
          quality_score := 0, penalties := ["Hallucination detected"],
          bonuses := [], feedback := [] }) := by
  constructor
  · intro h
    simp [calculate_question_score, h]
  · intro hh hm
    simp [calculate_question_score, hm, hh]

/-- A missing-response record (as built by `run_evaluation`). -/
def missingResultC6 : Result :=
  ⟨"q_missing", "volatility", .num 1, none, none, false, none,
   some "missing_response", false⟩

/-- A hallucination-flagged numeric record of the shape
`evaluate_agent_response` produces for an out-of-bounds percentage. -/
def hallucResultC6 : Result :=
  ⟨"q_halluc", "percentage_threshold", .num 10, some "150%",
   some (.num 150), false, some 140, some "numeric_error", true⟩

theorem c6_grading_early_returns_witness :
    calculate_question_score missingResultC6 =
      { query_id := "q_missing", category := "volatility", grade := .F,
        score := 0, accuracy_score := 0, precision_score := 0,
        quality_score := 0, penalties := [], bonuses := [],
        feedback := ["No response provided"] } ∧
    calculate_question_score hallucResultC6 =
      { query_id := "q_halluc", category := "percentage_threshold",
        grade := .F, score := 0, accuracy_score := 0, precision_score := 0,
        quality_score := 0, penalties := ["Hallucination detected"],
        bonuses := [], feedback := [] } :=
  ⟨(c6_grading_early_returns missingResultC6).1 rfl,
   (c6_grading_early_returns hallucResultC6).2 rfl (by decide)⟩

/-- **C7.** For all sub-score triples in `[0,100]^3` the final score is
`round(0.6*accuracy + 0.25*precision + 0.15*quality, 2)`. -/
theorem c7_final_score_formula (a p q : ℚ)
    (ha0 : 0 ≤ a) (ha1 : a ≤ 100) (hp0 : 0 ≤ p) (hp1 : p ≤ 100)
    (hq0 : 0 ≤ q) (hq1 : q ≤ 100) :
    calculate_final_score a p q = roundQ2 (0.6 * a + 0.25 * p + 0.15 * q) := by
  unfold calculate_final_score
  congr 1
  ring

theorem c7_final_score_formula_witness :
    calculate_final_score 80 60 40 =
      roundQ2 (0.6 * 80 + 0.25 * 60 + 0.15 * 40) :=
  c7_final_score_formula 80 60 40 (by norm_num) (by norm_num) (by norm_num)
    (by norm_num) (by norm_num) (by norm_num)

/-- **C8.** On `[0,100]` the grade lookup returns the first grade of the
descending threshold table whose threshold the score meets or exceeds
(so exactly one of the 13 levels), and score 0 maps to F. -/
theorem c8_grade_lookup_total_first_match (s : ℚ) (h0 : 0 ≤ s) (h1 : s ≤ 100) :
    (∃ pre g t post, gradeTable = pre ++ (g, t) :: post ∧ get_grade s = g ∧
      t ≤ s ∧ ∀ p ∈ pre, s < p.2) ∧ get_grade 0 = .F := by
  refine ⟨?_, by decide⟩
  rcases gradeScan_spec s gradeTable with ⟨_, hall⟩ | hfound
  · exfalso
    have := hall (.F, 0) (by simp [gradeTable])
    simp at this
    linarith
  · exact hfound

theorem c8_grade_lookup_total_first_match_witness :
    (∃ pre g t post, gradeTable = pre ++ (g, t) :: post ∧
      get_grade 87 = g ∧ t ≤ 87 ∧ ∀ p ∈ pre, (87 : ℚ) < p.2) ∧
    get_grade 0 = .F :=
  c8_grade_lookup_total_first_match 87 (by norm_num) (by norm_num)

/-- **C9.** For fixed precision and quality sub-scores in `[0,100]`, the
final score is monotone in the accuracy sub-score. -/
theorem c9_score_monotone_in_accuracy (a1 a2 p q : ℚ)
    (ha0 : 0 ≤ a1) (ha1 : a2 ≤ 100) (hp0 : 0 ≤ p) (hp1 : p ≤ 100)
    (hq0 : 0 ≤ q) (hq1 : q ≤ 100) (hle : a1 ≤ a2) :
    calculate_final_score a1 p q ≤ calculate_final_score a2 p q := by
  unfold calculate_final_score
  exact roundQ2_mono (by linarith)

theorem c9_score_monotone_in_accuracy_witness :
    calculate_final_score 30 50 50 ≤ calculate_final_score 70 50 50 :=
  c9_score_monotone_in_accuracy 30 70 50 50 (by norm_num) (by norm_num)
    (by norm_num) (by norm_num) (by norm_num) (by norm_num) (by norm_num)

/-- A percentage-threshold query whose truth sits near the domain
boundary: used to exhibit a correct-yet-flagged evaluation. -/
def pctQueryC1 : Query :=
  ⟨"q_pct", "For what percentage of days was TAO above 400?",
   "percentage_threshold", .num (499/5)⟩

/-- **C1, counterexample.** The claim `correct = true →
is_hallucination = false` fails: the response "100.2%" to a
percentage-threshold query with truth 99.8 extracts 100.2, which is
within the 1.0 tolerance (correct) yet strictly above the 100 bound
(flagged as hallucination). -/
theorem c1_correct_yet_flagged_counterexample :
    (evaluate_agent_response pctQueryC1 "100.2%").correct = true ∧
    (evaluate_agent_response pctQueryC1 "100.2%").is_hallucination = true := by
  have hs : numSearch pctSuffix "100.2%".toList =
      some ⟨false, ['1', '0', '0'], some ['2']⟩ := by decide
  have hd1 : digitsToNat ['1', '0', '0'] = 100 := by decide
  have hd2 : digitsToNat ['2'] = 2 := by decide
  have hv : numValue ⟨false, ['1', '0', '0'], some ['2']⟩ = 501/5 := by
    simp only [numValue, hd1, hd2]
    norm_num
  have he : extract_numeric_percentage "100.2%" = some (501/5) := by
    rw [extract_numeric_percentage_found (by decide) hs, hv]
  have hp : extractPredicted pctQueryC1 "100.2%" = some (.num (501/5)) := by
    simp only [extractPredicted, pctQueryC1, he]
    rfl
  constructor
  · show (calculate_accuracy (extractPredicted pctQueryC1 "100.2%")
      pctQueryC1.truth pctQueryC1.category).correct = true
    rw [hp]
    show (calculate_accuracy (some (.num (501/5))) (.num (499/5))
      "percentage_threshold").correct = true
    simp only [calculate_accuracy, decide_eq_true_eq]
    norm_num [abs_le]
  · show hallucinationFlag (extractPredicted pctQueryC1 "100.2%")
      pctQueryC1.category = true
    rw [hp]
    show hallucinationFlag (some (.num (501/5))) "percentage_threshold" = true
    simp only [hallucinationFlag]
    have hcond : True ∧ ((501/5 : ℚ) > 100 ∨ (501/5 : ℚ) < 0) :=
      ⟨trivial, Or.inl (by norm_num)⟩
    rw [if_pos hcond]

/-- **C1, amended.** A correct result always has a non-null predicted
value, and its hallucination flag equals the category-specific
out-of-domain check applied to that value (so a correct answer can still
be flagged when the value lies outside the category bounds or the string
whitelist); a correct ranking (list) answer is never flagged. -/
theorem c1_correct_implies_flag_is_bounds_check (q : Query) (resp : String)
    (h : (evaluate_agent_response q resp).correct = true) :
    ∃ v, (evaluate_agent_response q resp).predicted = some v ∧
      (evaluate_agent_response q resp).is_hallucination =
        hallucinationFlag (some v) q.category ∧
      ∀ l, v = Val.list l →
        (evaluate_agent_response q resp).is_hallucination = false := by
  rcases hp : extractPredicted q resp with _ | v
  · exfalso
    have hc : (evaluate_agent_response q resp).correct =
        (calculate_accuracy (extractPredicted q resp) q.truth q.category).correct :=
      rfl
    rw [hp] at hc
    rw [hc] at h
    cases q.truth <;> simp [calculate_accuracy] at h
  · refine ⟨v, ?_, ?_, ?_⟩
    · show extractPredicted q resp = some v
      exact hp
    · show hallucinationFlag (extractPredicted q resp) q.category =
        hallucinationFlag (some v) q.category
      rw [hp]
    · rintro l rfl
      have hmem := normalize_ranking_mem (extractPredicted_list hp)
      show hallucinationFlag (extractPredicted q resp) q.category = false
      rw [hp]
      simp only [hallucinationFlag, ite_eq_right_iff]
      intro hcon
      exact absurd hmem hcon

/-- A price-change query answered exactly: a concrete correct,
in-bounds evaluation. -/
def priceQueryC1 : Query :=
  ⟨"q_price", "By how much did SOL price change?", "price_change", .num 5⟩

theorem c1_correct_implies_flag_is_bounds_check_witness :
    (evaluate_agent_response priceQueryC1 "5").correct = true ∧
    ∃ v, (evaluate_agent_response priceQueryC1 "5").predicted = some v ∧
      (evaluate_agent_response priceQueryC1 "5").is_hallucination =
        hallucinationFlag (some v) priceQueryC1.category ∧
      ∀ l, v = Val.list l →
        (evaluate_agent_response priceQueryC1 "5").is_hallucination = false := by
  have hs : numSearch (fun _ => true) (plainCleanText "5") =
      some ⟨false, ['5'], none⟩ := by decide
  have hv : numValue ⟨false, ['5'], none⟩ = 5 := by
    have hd : digitsToNat ['5'] = 5 := by decide
    simp only [numValue, hd]
    norm_num
  have he : extract_plain_number "5" = some 5 := by
    rw [extract_plain_number_pos (by decide) hs (by decide), hv]
  have hp : extractPredicted priceQueryC1 "5" = some (.num 5) := by
    simp only [extractPredicted, priceQueryC1, he]
    rfl
  have hcorrect : (evaluate_agent_response priceQueryC1 "5").correct = true := by
    show (calculate_accuracy (extractPredicted priceQueryC1 "5")
      priceQueryC1.truth priceQueryC1.category).correct = true
    rw [hp]
    show (calculate_accuracy (some (.num 5)) (.num 5)
      "price_change").correct = true
    simp only [calculate_accuracy, decide_eq_true_eq]
    norm_num
  exact ⟨hcorrect,
    c1_correct_implies_flag_is_bounds_check priceQueryC1 "5" hcorrect⟩

/-- **C2.** For a query whose category is outside the six handled ones,
no extractor runs: the result has `predicted = None`, `correct = false`,
`error_type = type_mismatch`, `is_hallucination = true`, for every
response text. -/
theorem c2_unhandled_category_result (q : Query) (resp : String)
    (h : q.category ∉ (["percentage_threshold", "price_change", "volatility",
      "volume_analysis", "performance_comparison", "price_analysis"] :
        List String)) :
    (evaluate_agent_response q resp).predicted = none ∧
    (evaluate_agent_response q resp).correct = false ∧
    (evaluate_agent_response q resp).error_type = some "type_mismatch" ∧
    (evaluate_agent_response q resp).is_hallucination = true := by
  have h1 : q.category ≠ "percentage_threshold" := fun e => h (by simp [e])
  have h2 : q.category ≠ "price_change" := fun e => h (by simp [e])
  have h3 : q.category ≠ "volatility" := fun e => h (by simp [e])
  have h4 : q.category ≠ "volume_analysis" := fun e => h (by simp [e])
  have h5 : q.category ≠ "performance_comparison" := fun e => h (by simp [e])
  have h6 : q.category ≠ "price_analysis" := fun e => h (by simp [e])
  have hp : extractPredicted q resp = none := by
    simp [extractPredicted, h1, h2, h3, h4, h5, h6]
  have hacc : calculate_accuracy none q.truth q.category =
      ⟨false, none, some "type_mismatch"⟩ := by
    cases q.truth <;> rfl
  simp [evaluate_agent_response, hp, hacc, hallucinationFlag]

/-- An unhandled-category query (streak analysis). -/
def streakQueryC2 : Query :=
  ⟨"q_streak", "What was the longest streak of consecutive up days?",
   "streak_analysis", .num 4⟩

theorem c2_unhandled_category_result_witness :
    (streakQueryC2.category ∉ (["percentage_threshold", "price_change",
      "volatility", "volume_analysis", "performance_comparison",
      "price_analysis"] : List String)) ∧
    ((evaluate_agent_response streakQueryC2 "7 days").predicted = none ∧
     (evaluate_agent_response streakQueryC2 "7 days").correct = false ∧
     (evaluate_agent_response streakQueryC2 "7 days").error_type =
        some "type_mismatch" ∧
     (evaluate_agent_response streakQueryC2 "7 days").is_hallucination = true) :=
  ⟨by decide, c2_unhandled_category_result streakQueryC2 "7 days" (by decide)⟩

/-- The ranking-scenario input of the spec. -/
def rankingInputC5 : String := "Ranked by average close price: ETH, TAO, SOL."

/-- **C5.** Ranking extraction on the spec's scenario input returns
`["ETH", "TAO", "SOL"]`; the ordered scan of the cleaned text finds only
`["ETH", "TAO"]` (the trailing "SOL." is glued to the period), and the
second-pass fallback appends the missing `"SOL"` found as a substring. -/
theorem c5_ranking_scenario :
    normalize_ranking rankingInputC5 = some ["ETH", "TAO", "SOL"] ∧
    orderedScan (splitWs (rankingCleanText rankingInputC5)) = ["ETH", "TAO"] ∧
    fallbackPass ["ETH", "TAO"] (rankingCleanText rankingInputC5) =
      ["ETH", "TAO"] ++ ["SOL"] := by
  refine ⟨?_, ?_, ?_⟩ <;> rfl

/-- **C10.** In the full pipeline (`run_evaluation` per-question records
graded by `calculate_question_score`), the quality sub-score is 0 exactly
on the missing-response / hallucination early-return branches and 100
otherwise: a null prediction always sets the hallucination flag, so the
−50/−30 quality penalties never apply and the bonuses are clamped away. -/
theorem c10_quality_score_dichotomy (q : Query) (resp : Option String) :
    (calculate_question_score (runResult q resp)).quality_score =
      if (runResult q resp).error_type = some "missing_response" ∨
          (runResult q resp).is_hallucination = true then 0 else 100 := by
  cases resp with
  | none => simp [runResult, missingResult, calculate_question_score]
  | some t =>
    simp only [runResult]
    have het : (evaluate_agent_response q t).error_type ≠
        some "missing_response" :=
      calculate_accuracy_error_type_ne_missing (extractPredicted q t) q.truth
        q.category
    by_cases hh : (evaluate_agent_response q t).is_hallucination = true
    · simp [calculate_question_score, het, hh]
    · have hhf : (evaluate_agent_response q t).is_hallucination = false :=
        Bool.not_eq_true _ ▸ Bool.eq_false_iff.mpr hh
      have hpred : (evaluate_agent_response q t).predicted ≠ none := by
        intro hn
        have hflag : (evaluate_agent_response q t).is_hallucination =
            hallucinationFlag ((evaluate_agent_response q t).predicted)
              q.category := rfl
        rw [hn] at hflag
        simp [hallucinationFlag] at hflag
        exact hh hflag
      have hq := calculate_quality_score_eq_100 _ hhf hpred
      simp [calculate_question_score, het, hhf, hq]

end TokenAnalytics
